import Mathlib

/-!
Shallow embedding of the yt2mp3 command-line tool (src/yt2mp3):
the `ConfigManager` settings store (config.py), the `YouTubeDownloader`
orchestrator (downloader.py) and the `CLI` front end (cli.py).

Python dictionaries holding JSON values are embedded as insertion-ordered
association lists of `PyVal`; dictionary indexing that can raise `KeyError`
or `TypeError` is embedded with `Except PyErr`.  Side effects (directory
creation, the two calls into the external yt-dlp capability, entering the
interactive loop) are recorded in an explicit trace of `Effect` values.
The ambient world (which paths exist, whether `os.makedirs` or a disk
write succeeds, what the user answers at a prompt) is passed in as
explicit environment records.
-/

/-- A JSON-ish Python value as stored in the settings dictionary. -/
inductive PyVal where
  | str (s : String)
  | bool (b : Bool)
  | int (n : Int)
deriving DecidableEq, Repr

/-- A Python dict with string keys: insertion-ordered association list. -/
abbrev PyDict := List (String × PyVal)

/-- Python exceptions that the embedded code can raise. -/
inductive PyErr where
  | keyError (k : String)
  | typeError (msg : String)
deriving DecidableEq, Repr

/-- Python `d[k]` lookup (first binding wins; a dict has unique keys). -/
def dictGet? : PyDict → String → Option PyVal
  | [], _ => none
  | (k', v') :: t, k => if k' = k then some v' else dictGet? t k

/-- Python `d.get(k, dflt)`. -/
def dictGetD (d : PyDict) (k : String) (dflt : PyVal) : PyVal :=
  (dictGet? d k).getD dflt

/-- Python `d[k] = v`: replace in place if present, else append. -/
def dictSet : PyDict → String → PyVal → PyDict
  | [], k, v => [(k, v)]
  | (k', v') :: t, k, v =>
      if k' = k then (k, v) :: t else (k', v') :: dictSet t k v

/-- Coerce a `PyVal` to `String`, raising `TypeError` otherwise (as the
`os.path` functions do on non-`str` arguments). -/
def asStr : PyVal → Except PyErr String
  | .str s => .ok s
  | _ => .error (.typeError "expected str")

/-- The parts of the process environment that `os.path.expanduser` reads:
the current user's home directory and the home directory of named users. -/
structure Env where
  home : String
  userHome : String → Option String

/-- Split a character list at its first `/`: the part before it and the
remainder starting with that `/` (Python `path.find('/', 1)` and slicing). -/
def splitAtSlash : List Char → List Char × List Char
  | [] => ([], [])
  | c :: t =>
      if c = '/' then ([], c :: t)
      else
        let p := splitAtSlash t
        (c :: p.1, p.2)

/-- Python `s.rstrip('/')` on a character list. -/
def rstripSlash : List Char → List Char
  | [] => []
  | c :: t =>
      match rstripSlash t with
      | [] => if c = '/' then [] else [c]
      | r :: rs => c :: r :: rs

/-- `os.path.expanduser` (POSIX): expand a leading `~` or `~user`;
return the path unchanged when it does not start with `~` or the named
user is unknown; an all-slash result collapses to `/`. -/
def expanduser (env : Env) (p : String) : String :=
  match p.data with
  | [] => p
  | c :: rest =>
      if c = '~' then
        let pr := splitAtSlash rest
        let uh? : Option (List Char) :=
          if pr.1 = [] then some env.home.data
          else (env.userHome (String.mk pr.1)).map String.data
        match uh? with
        | none => p
        | some uh =>
            let r := rstripSlash uh ++ pr.2
            if r = [] then "/" else String.mk r
      else p

/-- `os.path.join` (POSIX) on two components. -/
def pathJoin (a b : String) : String :=
  if b.startsWith "/" then b
  else if a = "" || a.endsWith "/" then a ++ b
  else a ++ "/" ++ b

/-- `os.path.isabs` (POSIX): the path starts with `/`. -/
def isAbs (s : String) : Bool :=
  match s.data with
  | c :: _ => c = '/'
  | [] => false

/-! ## Substring containment: the Python `in` operator on strings -/

/-- Boolean test that `n` is a prefix of `h`. -/
def isPrefixCh : List Char → List Char → Bool
  | [], _ => true
  | _ :: _, [] => false
  | a :: as, b :: bs => a = b && isPrefixCh as bs

/-- Python `needle in hay` on strings: `needle` occurs contiguously. -/
def containsSub (needle : List Char) : List Char → Bool
  | [] => isPrefixCh needle []
  | c :: t => isPrefixCh needle (c :: t) || containsSub needle t

/-! ## ConfigManager (src/yt2mp3/config.py) -/

/-- Contents of the settings file on disk: either raw text that does not
parse as JSON, or a parsed JSON dictionary.  `Option FileData` is the
disk state, `none` meaning the file does not exist. -/
inductive FileData where
  | raw (s : String)
  | json (d : PyDict)
deriving DecidableEq, Repr

/-- `ConfigManager.get_default_config`: the documented defaults, with
`download_path` set to the user's Downloads directory. -/
def get_default_config (home : String) : PyDict :=
  [("download_path", .str (pathJoin home "Downloads")),
   ("audio_quality", .str "192"),
   ("filename_format", .str "%(title)s.%(ext)s"),
   ("keep_video", .bool false)]

/-- `ConfigManager.save_config`: overwrite the file with the serialized
mapping when the write succeeds; on an `IOError` the error is printed and
the disk is left as it was. -/
def save_config (writeOk : Bool) (disk : Option FileData) (cfg : PyDict) :
    Option FileData :=
  if writeOk then some (.json cfg) else disk

/-- `ConfigManager.load_config`: returns the in-memory settings together
with the resulting disk state.  No file: build defaults and persist them.
Unparseable file: print the error and fall back to defaults in memory.
Parseable file: return its contents. -/
def load_config (home : String) (writeOk : Bool) (disk : Option FileData) :
    PyDict × Option FileData :=
  match disk with
  | none =>
      let c := get_default_config home
      (c, save_config writeOk disk c)
  | some (.raw s) => (get_default_config home, some (.raw s))
  | some (.json d) => (d, some (.json d))

/-- The live state of a `ConfigManager`: the in-memory dict and the file. -/
structure CfgState where
  mem : PyDict
  disk : Option FileData
deriving DecidableEq, Repr

/-- `ConfigManager.update_setting`: set one key in memory, then
`save_config()` (which serializes the whole in-memory mapping). -/
def update_setting (writeOk : Bool) (st : CfgState) (k : String) (v : PyVal) :
    CfgState :=
  let m := dictSet st.mem k v
  { mem := m, disk := save_config writeOk st.disk m }

/-- `ConfigManager.get_download_path`: `os.path.expanduser` applied to
`self.config["download_path"]`; indexing a missing key raises `KeyError`
and `expanduser` on a non-string raises `TypeError`. -/
def get_download_path (env : Env) (cfg : PyDict) : Except PyErr String :=
  match dictGet? cfg "download_path" with
  | none => .error (.keyError "download_path")
  | some (.str s) => .ok (expanduser env s)
  | some _ => .error (.typeError "expected str")

/-- Lookup of a key in the on-disk settings file, when it holds JSON. -/
def diskLookup : Option FileData → String → Option PyVal
  | some (.json d), k => dictGet? d k
  | _, _ => none

/-! ## YouTubeDownloader (src/yt2mp3/downloader.py) -/

/-- `YouTubeDownloader.validate_url`:
`"youtube.com" in url or "youtu.be" in url`. -/
def validate_url (url : String) : Bool :=
  containsSub "youtube.com".data url.data || containsSub "youtu.be".data url.data

/-- The option dictionary handed to `yt_dlp.YoutubeDL` in `download`
(the single post-processor entry is flattened into the `pp*` fields). -/
structure YdlOpts where
  format : String
  outtmpl : String
  ppKey : String
  preferredcodec : String
  preferredquality : PyVal
  extractaudio : Bool
  audioformat : String
  keepvideo : PyVal
deriving DecidableEq, Repr

/-- Observable side effects of the orchestration layer. -/
inductive Effect where
  | makedirs (path : String)
  | extDownload (opts : YdlOpts) (url : String)
  | extractInfo (url : String)
  | showConfig
  | downloadCall (url : String)
  | interactiveSession
deriving DecidableEq, Repr

/-- The world `download` interacts with: path existence, whether
`os.makedirs` succeeds on a path, and whether `ydl.download` succeeds. -/
structure DlEnv where
  env : Env
  fsExists : String → Bool
  mkdirOk : String → Bool
  dlOk : Bool

/-- The literal `ydl_opts` dictionary from `download`, as a function of
the resolved download path, the filename template, the audio quality and
the keep-video value. -/
def mkOpts (dp ff : String) (aq kv : PyVal) : YdlOpts :=
  { format := "bestaudio[ext=m4a]/bestaudio[ext=webm]/bestaudio/best[height<=480]"
    outtmpl := pathJoin dp ff
    ppKey := "FFmpegExtractAudio"
    preferredcodec := "mp3"
    preferredquality := aq
    extractaudio := true
    audioformat := "mp3"
    keepvideo := kv }

/-- The tail of `download` after the target directory is ensured: build
`ydl_opts` (evaluation order of the dict literal: `filename_format`
lookup and `os.path.join` first, then `audio_quality`, then the
`keep_video` `.get`) and delegate to `ydl.download`, whose failure is
caught and turned into `False`. -/
def downloadRest (denv : DlEnv) (cfg : PyDict) (url : String) (dp : String)
    (effs : List Effect) : Except PyErr Bool × List Effect :=
  match dictGet? cfg "filename_format" with
  | none => (.error (.keyError "filename_format"), effs)
  | some fv =>
      match asStr fv with
      | .error e => (.error e, effs)
      | .ok ff =>
          match dictGet? cfg "audio_quality" with
          | none => (.error (.keyError "audio_quality"), effs)
          | some aq =>
              (.ok denv.dlOk,
               effs ++ [.extDownload
                 (mkOpts dp ff aq (dictGetD cfg "keep_video" (.bool false))) url])

/-- `YouTubeDownloader.download`: reject invalid URLs; resolve the
download path (`KeyError`/`TypeError` here propagate, they are outside
the `try`); ensure the directory exists, creating it at most once and
failing the operation if creation fails; then hand off to the external
capability.  Returns the Python result (or exception) plus the trace. -/
def download (denv : DlEnv) (cfg : PyDict) (url : String) :
    Except PyErr Bool × List Effect :=
  if validate_url url then
    match get_download_path denv.env cfg with
    | .error e => (.error e, [])
    | .ok dp =>
        if denv.fsExists dp then
          downloadRest denv cfg url dp []
        else if denv.mkdirOk dp then
          downloadRest denv cfg url dp [.makedirs dp]
        else
          (.ok false, [.makedirs dp])
  else
    (.ok false, [])

/-- Count the directory-creation attempts in a trace. -/
def countMakedirs (tr : List Effect) : Nat :=
  tr.countP fun e => match e with | .makedirs _ => true | _ => false

/-- Does a trace invoke the external media capability (metadata
extraction or fetch-and-transcode)? -/
def hasExternal (tr : List Effect) : Bool :=
  tr.any fun e =>
    match e with
    | .extDownload _ _ => true
    | .extractInfo _ => true
    | _ => false

/-! ## CLI (src/yt2mp3/cli.py) -/

/-- The parsed argparse namespace: `--link` and `--set-download-path`
carry optional string values, the rest are store-true flags. -/
structure Args where
  link : Option String
  setDownloadPath : Option String
  showConfig : Bool
  keepVideo : Bool
  noKeepVideo : Bool

/-- Python truthiness of an optional string (`None` and `""` are falsy). -/
def truthy : Option String → Bool
  | none => false
  | some s => !(s = "")

/-- `input(...).lower() in ['y', 'yes']`. -/
def yesAnswer (s : String) : Bool :=
  s.toLower = "y" || s.toLower = "yes"

/-- The world the CLI interacts with: directory test and creation for
`--set-download-path`, the user's reply to the create-directory prompt,
whether a config-file write succeeds, and the process environment. -/
structure CliEnv where
  env : Env
  isdir : String → Bool
  promptAnswer : String
  mkdirOk : String → Bool
  writeOk : Bool

/-- The `--set-download-path` block of `handle_config_commands` (when
the argument is truthy): expand the path, create it when it already is a
directory or the user agrees at the prompt, and on success store the
*unexpanded* argument.  Returns (config_changed, state, trace). -/
def setPathStep (cenv : CliEnv) (st : CfgState) :
    Option String → Bool × CfgState × List Effect
  | none => (false, st, [])
  | some s =>
      if s = "" then (false, st, [])
      else
        let path := expanduser cenv.env s
        if cenv.isdir path || yesAnswer cenv.promptAnswer then
          if cenv.mkdirOk path then
            (true,
             update_setting cenv.writeOk st "download_path" (.str s),
             [.makedirs path])
          else (false, st, [.makedirs path])
        else (false, st, [])

/-- A `--keep-video` / `--no-keep-video` block: when the flag is set,
persist the given boolean and mark the configuration changed. -/
def keepStep (writeOk flag val : Bool) (acc : Bool × CfgState × List Effect) :
    Bool × CfgState × List Effect :=
  if flag then
    (true, update_setting writeOk acc.2.1 "keep_video" (.bool val), acc.2.2)
  else acc

/-- `CLI.handle_config_commands`: `--show-config` prints and returns
`True` at once; then the `--set-download-path`, `--keep-video` and
`--no-keep-video` blocks run in order.  Returns
`config_changed or args.set_download_path is not None`, the new settings
state and the trace. -/
def handle_config_commands (cenv : CliEnv) (st : CfgState) (args : Args) :
    Bool × CfgState × List Effect :=
  if args.showConfig then (true, st, [.showConfig])
  else
    let s3 :=
      keepStep cenv.writeOk args.noKeepVideo false
        (keepStep cenv.writeOk args.keepVideo true
          (setPathStep cenv st args.setDownloadPath))
    (s3.1 || args.setDownloadPath.isSome, s3.2.1, s3.2.2)

/-- `CLI.run`: dispatch config commands first and stop if any were
handled; otherwise download the `--link` URL if one was given (Python
truthiness), else enter interactive mode.  The call into
`YouTubeDownloader.download` and the interactive session are recorded as
trace events. -/
def CLI.run (cenv : CliEnv) (st : CfgState) (args : Args) :
    CfgState × List Effect :=
  let h := handle_config_commands cenv st args
  if h.1 then (h.2.1, h.2.2)
  else
    match args.link with
    | some l =>
        if l = "" then (h.2.1, h.2.2 ++ [.interactiveSession])
        else (h.2.1, h.2.2 ++ [.downloadCall l])
    | none => (h.2.1, h.2.2 ++ [.interactiveSession])

/-- Does a trace contain an invocation of `YouTubeDownloader.download`? -/
def hasDownloadCall (tr : List Effect) : Bool :=
  tr.any fun e => match e with | .downloadCall _ => true | _ => false

/-! ## Concrete sample worlds, used to instantiate theorems -/

/-- A sample process environment. -/
def envW : Env :=
  { home := "/home/user", userHome := fun _ => none }

/-- A downloader world where every path exists. -/
def denvExists : DlEnv :=
  { env := envW, fsExists := fun _ => true, mkdirOk := fun _ => true,
    dlOk := true }

/-- A downloader world where no path exists and creation fails. -/
def denvNoDir : DlEnv :=
  { env := envW, fsExists := fun _ => false, mkdirOk := fun _ => false,
    dlOk := true }

/-- A sample CLI world. -/
def cliEnvW : CliEnv :=
  { env := envW, isdir := fun _ => true, promptAnswer := "n",
    mkdirOk := fun _ => true, writeOk := true }

/-- A sample settings dictionary with the claim C1 values. -/
def cfgW : PyDict :=
  [("download_path", .str "/dl"),
   ("audio_quality", .str "320"),
   ("filename_format", .str "X_%(title)s.%(ext)s")]

/-- A sample settings-store state whose file is in sync with memory. -/
def stW : CfgState :=
  { mem := [("audio_quality", .str "192")],
    disk := some (.json [("audio_quality", .str "192")]) }

/-- A sample argparse result: `--link` together with `--show-config`. -/
def argsW : Args :=
  { link := some "https://youtube.com/watch", setDownloadPath := none,
    showConfig := true, keepVideo := false, noKeepVideo := false }

/-! ## Substring lemmas -/

theorem isPrefixCh_iff (n h : List Char) :
    isPrefixCh n h = true ↔ ∃ t, n ++ t = h := by
  induction n generalizing h with
  | nil => simp [isPrefixCh]
  | cons a as ih =>
    cases h with
    | nil =>
      simp [isPrefixCh]
    | cons b bs =>
      simp only [isPrefixCh, Bool.and_eq_true, decide_eq_true_eq, ih,
        List.cons_append, List.cons.injEq]
      constructor
      · rintro ⟨rfl, t, rfl⟩
        exact ⟨t, rfl, rfl⟩
      · rintro ⟨t, rfl, rfl⟩
        exact ⟨rfl, t, rfl⟩

theorem containsSub_iff (n h : List Char) :
    containsSub n h = true ↔ ∃ s t, s ++ n ++ t = h := by
  induction h with
  | nil =>
    simp only [containsSub, isPrefixCh_iff]
    constructor
    · rintro ⟨t, ht⟩
      exact ⟨[], t, by simpa using ht⟩
    · rintro ⟨s, t, hst⟩
      have hs : s = [] := by
        cases s with
        | nil => rfl
        | cons x xs => simp at hst
      subst hs
      exact ⟨t, by simpa using hst⟩
  | cons c t ih =>
    simp only [containsSub, Bool.or_eq_true, isPrefixCh_iff, ih]
    constructor
    · rintro (⟨u, hu⟩ | ⟨s, u, hu⟩)
      · exact ⟨[], u, by simpa using hu⟩
      · exact ⟨c :: s, u, by simp [hu]⟩
    · rintro ⟨s, u, hu⟩
      cases s with
      | nil =>
        exact Or.inl ⟨u, by simpa using hu⟩
      | cons x xs =>
        simp only [List.cons_append, List.cons.injEq] at hu
        exact Or.inr ⟨xs, u, hu.2⟩

/-! ## Association-list lemmas -/

theorem dictGet_dictSet_same (d : PyDict) (k : String) (v : PyVal) :
    dictGet? (dictSet d k v) k = some v := by
  induction d with
  | nil => simp [dictSet, dictGet?]
  | cons p t ih =>
    by_cases h : p.1 = k
    · simp [dictSet, dictGet?, h]
    · simp [dictSet, dictGet?, h, ih]

theorem dictGet_dictSet_other (d : PyDict) (k k' : String) (v : PyVal)
    (hne : k' ≠ k) :
    dictGet? (dictSet d k v) k' = dictGet? d k' := by
  have hkk : ¬ k = k' := fun h => hne h.symm
  induction d with
  | nil => simp [dictSet, dictGet?, hkk]
  | cons p t ih =>
    obtain ⟨pk, pv⟩ := p
    by_cases h : pk = k
    · subst h
      simp [dictSet, dictGet?, hkk]
    · simp [dictSet, dictGet?, h, ih]

/-! ## Downloader lemmas -/

theorem downloadRest_eq (denv : DlEnv) (cfg : PyDict) (url dp f : String)
    (q : PyVal) (effs : List Effect)
    (hf : dictGet? cfg "filename_format" = some (.str f))
    (hq : dictGet? cfg "audio_quality" = some q) :
    downloadRest denv cfg url dp effs =
      (.ok denv.dlOk,
       effs ++ [.extDownload
         (mkOpts dp f q (dictGetD cfg "keep_video" (.bool false))) url]) := by
  simp [downloadRest, hf, hq, asStr]

theorem countMakedirs_downloadRest (denv : DlEnv) (cfg : PyDict)
    (url dp : String) (effs : List Effect) :
    countMakedirs (downloadRest denv cfg url dp effs).2 =
      countMakedirs effs := by
  unfold downloadRest
  cases hf : dictGet? cfg "filename_format" with
  | none => rfl
  | some fv =>
    cases fv with
    | str f =>
      cases hq : dictGet? cfg "audio_quality" with
      | none => simp [asStr]
      | some q => simp [asStr, countMakedirs, List.countP_append]
    | bool b => simp [asStr]
    | int n => simp [asStr]

theorem download_valid_eq (denv : DlEnv) (cfg : PyDict) (url p : String)
    (hv : validate_url url = true)
    (hp : dictGet? cfg "download_path" = some (.str p)) :
    download denv cfg url =
      (if denv.fsExists (expanduser denv.env p) then
        downloadRest denv cfg url (expanduser denv.env p) []
      else if denv.mkdirOk (expanduser denv.env p) then
        downloadRest denv cfg url (expanduser denv.env p)
          [.makedirs (expanduser denv.env p)]
      else
        (.ok false, [.makedirs (expanduser denv.env p)])) := by
  simp [download, hv, get_download_path, hp]

/-! ## CLI lemmas -/

theorem keepStep_fst (writeOk flag val : Bool)
    (acc : Bool × CfgState × List Effect) :
    (keepStep writeOk flag val acc).1 = (flag || acc.1) := by
  by_cases hf : flag = true <;> simp [keepStep, hf]

theorem keepStep_trace (writeOk flag val : Bool)
    (acc : Bool × CfgState × List Effect) :
    (keepStep writeOk flag val acc).2.2 = acc.2.2 := by
  by_cases hf : flag = true <;> simp [keepStep, hf]

theorem setPathStep_no_downloadCall (cenv : CliEnv) (st : CfgState)
    (o : Option String) :
    hasDownloadCall (setPathStep cenv st o).2.2 = false := by
  cases o with
  | none => rfl
  | some s =>
    by_cases hs : s = ""
    · simp [setPathStep, hs, hasDownloadCall]
    · by_cases hd : (cenv.isdir (expanduser cenv.env s) ||
          yesAnswer cenv.promptAnswer) = true
      · by_cases hm : cenv.mkdirOk (expanduser cenv.env s) = true
        · simp [setPathStep, hs, hd, hm, hasDownloadCall]
        · simp [setPathStep, hs, hd, hm, hasDownloadCall]
      · simp [setPathStep, hs, hd, hasDownloadCall]

theorem handle_config_commands_no_downloadCall (cenv : CliEnv)
    (st : CfgState) (args : Args) :
    hasDownloadCall (handle_config_commands cenv st args).2.2 = false := by
  unfold handle_config_commands
  by_cases hs : args.showConfig = true
  · simp [hs, hasDownloadCall]
  · simp [hs, keepStep_trace, setPathStep_no_downloadCall]

theorem handle_config_commands_handled (cenv : CliEnv) (st : CfgState)
    (args : Args)
    (h : args.showConfig = true ∨ args.setDownloadPath.isSome = true ∨
         args.keepVideo = true ∨ args.noKeepVideo = true) :
    (handle_config_commands cenv st args).1 = true := by
  unfold handle_config_commands
  by_cases hs : args.showConfig = true
  · simp [hs]
  · rcases h with h | h | h | h
    · exact absurd h hs
    · simp [hs, h]
    · simp [hs, keepStep_fst, h]
    · simp [hs, keepStep_fst, h]

/-! ## expanduser lemmas -/

theorem rstripSlash_head (c : Char) (t : List Char) :
    rstripSlash (c :: t) = [] ∨ ∃ r, rstripSlash (c :: t) = c :: r := by
  unfold rstripSlash
  cases h : rstripSlash t with
  | nil =>
    by_cases hc : c = '/'
    · left
      simp [hc]
    · right
      exact ⟨[], by simp [hc]⟩
  | cons r rs =>
    right
    exact ⟨r :: rs, rfl⟩

theorem expanduser_of_ne_tilde (env : Env) (p : String) (c : Char)
    (r : List Char) (hp : p.data = c :: r) (hc : c ≠ '~') :
    expanduser env p = p := by
  unfold expanduser
  rw [hp]
  simp [hc]

theorem isAbs_expanduser_tilde_slash (env : Env) (p : String) (r : List Char)
    (hp : p.data = '~' :: '/' :: r) (hh : isAbs env.home = true) :
    isAbs (expanduser env p) = true := by
  cases hhd : env.home.data with
  | nil => simp [isAbs, hhd] at hh
  | cons hc ht =>
    have hc' : hc = '/' := by simpa [isAbs, hhd] using hh
    subst hc'
    unfold expanduser
    rw [hp]
    rcases rstripSlash_head '/' ht with h0 | ⟨r2, h2⟩
    · simp [splitAtSlash, hhd, h0, isAbs]
    · simp [splitAtSlash, hhd, h2, isAbs]

theorem isAbs_expanduser_tilde (env : Env) (p : String)
    (hp : p.data = ['~']) (hh : isAbs env.home = true) :
    isAbs (expanduser env p) = true := by
  cases hhd : env.home.data with
  | nil => simp [isAbs, hhd] at hh
  | cons hc ht =>
    have hc' : hc = '/' := by simpa [isAbs, hhd] using hh
    subst hc'
    unfold expanduser
    rw [hp]
    rcases rstripSlash_head '/' ht with h0 | ⟨r2, h2⟩
    · simp [splitAtSlash, hhd, h0, isAbs]
    · simp [splitAtSlash, hhd, h2, isAbs]

/-! ## Claims -/

/-- C5: `validate_url url` returns true iff `url` contains the host
marker "youtube.com" or "youtu.be" as a contiguous substring; in
particular the empty string is rejected. -/
theorem C5_validate_url_characterization :
    (∀ url : String, validate_url url = true ↔
      ((∃ s t, s ++ "youtube.com".data ++ t = url.data) ∨
       (∃ s t, s ++ "youtu.be".data ++ t = url.data))) ∧
    validate_url "" = false := by
  refine ⟨fun url => ?_, by decide⟩
  simp [validate_url, containsSub_iff]

/-- C6: with no settings file on disk, `load_config` returns the
documented defaults (`download_path` the user's Downloads directory,
`audio_quality` "192", `filename_format` "%(title)s.%(ext)s",
`keep_video` false) and persists exactly that mapping to disk. -/
theorem C6_load_config_creates_defaults (home : String) :
    dictGet? (load_config home true none).1 "download_path" =
      some (.str (pathJoin home "Downloads")) ∧
    dictGet? (load_config home true none).1 "audio_quality" =
      some (.str "192") ∧
    dictGet? (load_config home true none).1 "filename_format" =
      some (.str "%(title)s.%(ext)s") ∧
    dictGet? (load_config home true none).1 "keep_video" =
      some (.bool false) ∧
    (load_config home true none).2 =
      some (.json (load_config home true none).1) :=
  ⟨rfl, rfl, rfl, rfl, rfl⟩

/-- C7: with an unparseable settings file on disk, `load_config` returns
the default settings in memory and leaves the corrupt file bytes
untouched on disk. -/
theorem C7_load_config_corrupt_file (home : String) (writeOk : Bool)
    (s : String) :
    (load_config home writeOk (some (.raw s))).1 = get_default_config home ∧
    (load_config home writeOk (some (.raw s))).2 = some (.raw s) :=
  ⟨rfl, rfl⟩

/-- C2: on a URL rejected by `validate_url`, `download` returns `False`
with an empty effect trace: no external call (neither metadata
extraction nor fetch) and no directory-creation attempt. -/
theorem C2_download_invalid_url (denv : DlEnv) (cfg : PyDict) (url : String)
    (h : validate_url url = false) :
    download denv cfg url = (.ok false, []) := by
  simp [download, h]

/-- Witness for C2 at a concrete non-YouTube URL. -/
theorem C2_witness :
    validate_url "https://example.com" = false ∧
    download denvExists [] "https://example.com" = (.ok false, []) :=
  ⟨by decide,
   C2_download_invalid_url denvExists [] "https://example.com" (by decide)⟩

/-- C1: with `audio_quality` "320" and `filename_format`
"X_%(title)s.%(ext)s" in the settings, a valid URL and a reachable
target directory, the option set `download` hands to the external
capability carries preferred codec "mp3", preferred quality "320" and an
output template equal to the filename format joined under the resolved
download path. -/
theorem C1_download_derived_options (denv : DlEnv) (cfg : PyDict)
    (url p : String)
    (hv : validate_url url = true)
    (hp : dictGet? cfg "download_path" = some (.str p))
    (hq : dictGet? cfg "audio_quality" = some (.str "320"))
    (hf : dictGet? cfg "filename_format" = some (.str "X_%(title)s.%(ext)s"))
    (hdir : denv.fsExists (expanduser denv.env p) = true ∨
            denv.mkdirOk (expanduser denv.env p) = true) :
    ∃ pre opts,
      (download denv cfg url).2 = pre ++ [Effect.extDownload opts url] ∧
      opts.preferredcodec = "mp3" ∧
      opts.preferredquality = PyVal.str "320" ∧
      opts.outtmpl =
        pathJoin (expanduser denv.env p) "X_%(title)s.%(ext)s" := by
  rw [download_valid_eq denv cfg url p hv hp]
  by_cases hfs : denv.fsExists (expanduser denv.env p) = true
  · refine ⟨[], mkOpts (expanduser denv.env p) "X_%(title)s.%(ext)s"
      (.str "320") (dictGetD cfg "keep_video" (.bool false)),
      ?_, rfl, rfl, rfl⟩
    rw [if_pos hfs, downloadRest_eq denv cfg url _ _ _ _ hf hq]
  · have hmk := hdir.resolve_left hfs
    refine ⟨[.makedirs (expanduser denv.env p)],
      mkOpts (expanduser denv.env p) "X_%(title)s.%(ext)s"
      (.str "320") (dictGetD cfg "keep_video" (.bool false)),
      ?_, rfl, rfl, rfl⟩
    rw [if_neg hfs, if_pos hmk, downloadRest_eq denv cfg url _ _ _ _ hf hq]

/-- Witness for C1 at a concrete world, URL and settings. -/
theorem C1_witness :
    ∃ pre opts,
      (download denvExists cfgW "https://youtube.com/watch?v=a").2 =
        pre ++ [Effect.extDownload opts "https://youtube.com/watch?v=a"] ∧
      opts.preferredcodec = "mp3" ∧
      opts.preferredquality = PyVal.str "320" ∧
      opts.outtmpl =
        pathJoin (expanduser denvExists.env "/dl") "X_%(title)s.%(ext)s" :=
  C1_download_derived_options denvExists cfgW "https://youtube.com/watch?v=a"
    "/dl" (by decide) (by decide) (by decide) (by decide) (Or.inl (by decide))

/-- C3: on a valid URL whose configured target directory does not exist,
`download` attempts creation exactly once; when creation fails it
returns `False` with the single `makedirs` attempt as its only effect,
so no external call is made. -/
theorem C3_download_creates_dir_once (denv : DlEnv) (cfg : PyDict)
    (url p : String)
    (hv : validate_url url = true)
    (hp : dictGet? cfg "download_path" = some (.str p))
    (hfs : denv.fsExists (expanduser denv.env p) = false) :
    countMakedirs (download denv cfg url).2 = 1 ∧
    (denv.mkdirOk (expanduser denv.env p) = false →
      download denv cfg url =
        (.ok false, [.makedirs (expanduser denv.env p)])) := by
  rw [download_valid_eq denv cfg url p hv hp]
  constructor
  · by_cases hmk : denv.mkdirOk (expanduser denv.env p) = true
    · rw [if_neg (by simp [hfs]), if_pos hmk, countMakedirs_downloadRest]
      rfl
    · rw [if_neg (by simp [hfs]), if_neg hmk]
      rfl
  · intro hmk
    simp [hfs, hmk]

/-- Witness for C3 at a concrete world where creation fails. -/
theorem C3_witness :
    countMakedirs (download denvNoDir cfgW "https://youtu.be/x").2 = 1 ∧
    download denvNoDir cfgW "https://youtu.be/x" =
      (.ok false, [.makedirs (expanduser denvNoDir.env "/dl")]) := by
  have h := C3_download_creates_dir_once denvNoDir cfgW "https://youtu.be/x"
    "/dl" (by decide) (by decide) (by decide)
  exact ⟨h.1, h.2 (by decide)⟩

/-- C4 fails as stated: with a parsed settings dictionary that lacks the
`download_path` key and a valid URL, `download` raises `KeyError`
instead of returning a boolean. -/
theorem C4_counterexample :
    (download denvExists [] "https://youtube.com/watch").1 =
      .error (.keyError "download_path") := rfl

/-- C4 (amended): `download` returns a boolean and never raises provided
the URL is invalid, or the settings hold string values under
`download_path` and `filename_format` and any value under
`audio_quality` (missing keys, or non-string values where the code
applies path functions, raise `KeyError`/`TypeError` instead). -/
theorem C4_download_returns_bool (denv : DlEnv) (cfg : PyDict) (url : String)
    (h : validate_url url = false ∨
      ((∃ p, dictGet? cfg "download_path" = some (.str p)) ∧
       (∃ f, dictGet? cfg "filename_format" = some (.str f)) ∧
       ∃ q, dictGet? cfg "audio_quality" = some q)) :
    ∃ b tr, download denv cfg url = (.ok b, tr) := by
  rcases h with h | ⟨⟨p, hp⟩, ⟨f, hf⟩, ⟨q, hq⟩⟩
  · exact ⟨false, [], by simp [download, h]⟩
  · by_cases hv : validate_url url = true
    · rw [download_valid_eq denv cfg url p hv hp]
      by_cases hfs : denv.fsExists (expanduser denv.env p) = true
      · rw [if_pos hfs, downloadRest_eq denv cfg url _ f q _ hf hq]
        exact ⟨denv.dlOk, _, rfl⟩
      · by_cases hmk : denv.mkdirOk (expanduser denv.env p) = true
        · rw [if_neg hfs, if_pos hmk, downloadRest_eq denv cfg url _ f q _ hf hq]
          exact ⟨denv.dlOk, _, rfl⟩
        · rw [if_neg hfs, if_neg hmk]
          exact ⟨false, _, rfl⟩
    · simp only [Bool.not_eq_true] at hv
      exact ⟨false, [], by simp [download, hv]⟩

/-- Witness for the amended C4 at a concrete world and settings. -/
theorem C4_witness :
    ∃ b tr,
      download denvExists cfgW "https://youtube.com/watch" = (.ok b, tr) :=
  C4_download_returns_bool denvExists cfgW "https://youtube.com/watch"
    (Or.inr ⟨⟨"/dl", by decide⟩, ⟨"X_%(title)s.%(ext)s", by decide⟩,
      ⟨.str "320", by decide⟩⟩)

/-- C8: after `update_setting k v` on a state whose file is in sync with
memory, and a successful write, the new value is visible under `k` both
in memory and in the persisted file, and every other key is unchanged in
both. -/
theorem C8_update_setting_visible (writeOk : Bool) (st : CfgState)
    (k k' : String) (v : PyVal)
    (hw : writeOk = true) (hsync : st.disk = some (.json st.mem))
    (hne : k' ≠ k) :
    dictGet? (update_setting writeOk st k v).mem k = some v ∧
    diskLookup (update_setting writeOk st k v).disk k = some v ∧
    dictGet? (update_setting writeOk st k v).mem k' = dictGet? st.mem k' ∧
    diskLookup (update_setting writeOk st k v).disk k' =
      diskLookup st.disk k' := by
  subst hw
  refine ⟨?_, ?_, ?_, ?_⟩ <;>
    simp [update_setting, save_config, diskLookup, hsync,
      dictGet_dictSet_same, dictGet_dictSet_other _ _ _ _ hne]

/-- Witness for C8 at a concrete state, key and value. -/
theorem C8_witness :
    dictGet? (update_setting true stW "keep_video" (.bool true)).mem
      "keep_video" = some (.bool true) ∧
    diskLookup (update_setting true stW "keep_video" (.bool true)).disk
      "keep_video" = some (.bool true) ∧
    dictGet? (update_setting true stW "keep_video" (.bool true)).mem
      "audio_quality" = dictGet? stW.mem "audio_quality" ∧
    diskLookup (update_setting true stW "keep_video" (.bool true)).disk
      "audio_quality" = diskLookup stW.disk "audio_quality" :=
  C8_update_setting_visible true stW "keep_video" "audio_quality"
    (.bool true) rfl rfl (by decide)

/-- C9 fails as stated: a stored relative `download_path` with no
user-home shorthand comes back from `get_download_path` unchanged and
not absolute. -/
theorem C9_counterexample :
    get_download_path envW [("download_path", PyVal.str "music")] =
      .ok "music" ∧
    isAbs "music" = false :=
  ⟨rfl, rfl⟩

/-- C9 (amended): `get_download_path` returns the stored path with
user-home shorthand expanded (Python `os.path.expanduser` semantics);
the result is absolute whenever the stored path already is absolute, or
it is `~` or starts with `~/` and the process home directory is
absolute — a stored relative path without shorthand stays relative. -/
theorem C9_get_download_path_expands (env : Env) (cfg : PyDict) (p : String)
    (hp : dictGet? cfg "download_path" = some (.str p)) :
    get_download_path env cfg = .ok (expanduser env p) ∧
    (isAbs p = true → isAbs (expanduser env p) = true) ∧
    (isAbs env.home = true →
      ((∃ r, p.data = '~' :: '/' :: r) ∨ p.data = ['~']) →
      isAbs (expanduser env p) = true) := by
  refine ⟨by simp [get_download_path, hp], fun habs => ?_, fun hh hc => ?_⟩
  · cases hd : p.data with
    | nil => simp [isAbs, hd] at habs
    | cons c r =>
      have hc : c = '/' := by simpa [isAbs, hd] using habs
      rw [expanduser_of_ne_tilde env p c r hd (by rw [hc]; decide)]
      exact habs
  · rcases hc with ⟨r, hr⟩ | hr
    · exact isAbs_expanduser_tilde_slash env p r hr hh
    · exact isAbs_expanduser_tilde env p hr hh

/-- Witness for the amended C9 at a concrete `~/`-path. -/
theorem C9_witness :
    get_download_path envW [("download_path", PyVal.str "~/Music")] =
      .ok (expanduser envW "~/Music") ∧
    isAbs (expanduser envW "~/Music") = true := by
  have h := C9_get_download_path_expands envW
    [("download_path", PyVal.str "~/Music")] "~/Music" rfl
  exact ⟨h.1, h.2.2 (by decide) (Or.inl ⟨"Music".data, by decide⟩)⟩

/-- C10: when `--link` is supplied together with any configuration flag
(`--show-config`, `--set-download-path`, `--keep-video`,
`--no-keep-video`), `run` performs only the configuration handling —
its result is exactly the state and trace of `handle_config_commands` —
and `YouTubeDownloader.download` is never invoked. -/
theorem C10_run_config_flags_no_download (cenv : CliEnv) (st : CfgState)
    (args : Args)
    (hl : args.link.isSome = true)
    (h : args.showConfig = true ∨ args.setDownloadPath.isSome = true ∨
         args.keepVideo = true ∨ args.noKeepVideo = true) :
    CLI.run cenv st args =
      ((handle_config_commands cenv st args).2.1,
       (handle_config_commands cenv st args).2.2) ∧
    hasDownloadCall (CLI.run cenv st args).2 = false := by
  have hA := handle_config_commands_handled cenv st args h
  have hB := handle_config_commands_no_downloadCall cenv st args
  constructor
  · simp [CLI.run, hA]
  · simp [CLI.run, hA, hB]

/-- Witness for C10: `--link` together with `--show-config`. -/
theorem C10_witness :
    CLI.run cliEnvW stW argsW =
      ((handle_config_commands cliEnvW stW argsW).2.1,
       (handle_config_commands cliEnvW stW argsW).2.2) ∧
    hasDownloadCall (CLI.run cliEnvW stW argsW).2 = false :=
  C10_run_config_flags_no_download cliEnvW stW argsW rfl (Or.inl rfl)
